import Mathlib

/- Verification of the statistical core of the ABTestAnalyzer repository
   (ab_testing_analyzer.py and sample_size_calculator.py).

   Conventions used throughout this development:
   . Python floats are modelled as real numbers; scalars that reach the
     engine as exact decimals (rates, lifts, revenues, allocations,
     significance levels) are carried as rationals, which embed into the
     reals where a real-valued quantity is produced.  Everything that the
     source computes with rational operations only is kept computable;
     quantities built from square roots or the normal distribution are
     necessarily noncomputable reals.
   . The scipy normal quantiles norm.ppf(1 - alpha/2) and norm.ppf(power)
     are irrational constants external to the repository, so every
     definition that uses them takes them as an explicit real parameter
     (z_critical, z_alpha, z_beta, or their sum z_alpha_plus_beta),
     exactly as the source caches them on the SampleSizeCalculator object.
   . The scipy normal cdf is likewise taken as a function parameter phi
     wherever a p-value or a power is produced.
   . Python int() applied to a float truncates toward zero; this is pyInt
     below.  np.ceil followed by int() is the integer ceiling.
   . Functions that raise ValueError are modelled as Except String valued
     functions returning the exact message of the raise statement.  The
     isinstance int type checks of the source are enforced by the integer
     argument types of the embedding. -/

namespace ABTest

/-- Python int() on a rational value: truncation toward zero. -/
def pyInt (x : ℚ) : ℤ := if x < 0 then -⌊-x⌋ else ⌊x⌋

/-- Decidable success test for Except results. -/
def is_ok {ε α : Type} (e : Except ε α) : Bool :=
  match e with
  | Except.ok _ => true
  | Except.error _ => false

/- ------------------------------------------------------------------
   Estimator: calculate_group_stats (ARPU / revenue metric),
   from ab_testing_analyzer.py lines 10-60.
   ------------------------------------------------------------------ -/

/-- The complete per-user revenue vector built by the source via
    all_revenues = np.zeros(users); all_revenues[:n_conversions] = conversions.
    Faithful whenever conversions.length is at most users (numpy rejects the
    slice assignment otherwise). -/
def all_revenues (users : ℕ) (conversions : List ℚ) : List ℚ :=
  conversions ++ List.replicate (users - conversions.length) 0

/-- np.var(v, ddof=d): mean over the full length, squared deviations summed
    and divided by (length - ddof).  When that divisor is 0 the float result
    is NaN (in this program the numerator is then 0 as well, since a
    length-1 vector has no deviation from its mean, and numpy evaluates 0/0
    to NaN with a RuntimeWarning); NaN has no rational counterpart and is
    modelled as none.  Otherwise the exact rational value is returned. -/
def np_var (v : List ℚ) (ddof : ℕ) : Option ℚ :=
  if (v.length : ℚ) - (ddof : ℚ) = 0 then none
  else some
    (((v.map fun x => (x - v.sum / (v.length : ℚ)) ^ 2).sum) /
      ((v.length : ℚ) - (ddof : ℚ)))

/-- Mean of a list, used by the independent statement of the spec formula. -/
def list_mean (v : List ℚ) : ℚ := v.sum / (v.length : ℚ)

/-- The unbiased (n-1 denominator) sample variance named by the spec, written
    independently of the source through the sum-of-squares identity
    sum (x - mean)^2 = sum x^2 - n * mean^2. -/
def unbiased_sample_variance (v : List ℚ) : ℚ :=
  (((v.map fun x => x ^ 2).sum) - (v.length : ℚ) * (list_mean v) ^ 2) /
    ((v.length : ℚ) - 1)

/-- itertools.combinations(xs, 2): unordered index pairs in input order. -/
def pairs {α : Type} : List α → List (α × α)
  | [] => []
  | x :: xs => (xs.map fun y => (x, y)) ++ pairs xs

/-- n_comparisons = n_groups * (n_groups - 1) // 2. -/
def n_comparisons (n : ℕ) : ℕ := n * (n - 1) / 2

/- ------------------------------------------------------------------
   Rational skeleton of the sample-size module, from
   sample_size_calculator.py.  The argument `a` is the allocation ratio
   of the treatment group.
   ------------------------------------------------------------------ -/

/-- treatment_rate = control_rate * (1 + lift_percentage). -/
def treatment_rate (control_rate lift : ℚ) : ℚ := control_rate * (1 + lift)

/-- pooled_rate = (control_rate + treatment_rate) / 2. -/
def pooled_rate (control_rate lift : ℚ) : ℚ :=
  (control_rate + treatment_rate control_rate lift) / 2

/-- pooled_variance = pooled_rate * (1 - pooled_rate). -/
def pooled_variance (control_rate lift : ℚ) : ℚ :=
  pooled_rate control_rate lift * (1 - pooled_rate control_rate lift)

/-- minimum_detectable_effect = treatment_rate - control_rate. -/
def minimum_detectable_effect (control_rate lift : ℚ) : ℚ :=
  treatment_rate control_rate lift - control_rate

/-- denominator = (treatment_rate - control_rate)^2. -/
def ss_denominator (control_rate lift : ℚ) : ℚ :=
  (treatment_rate control_rate lift - control_rate) ^ 2

/-- Power analysis: n1 = int(sample_size * (1 - allocation_ratio)). -/
def pa_n1 (sample_size : ℤ) (a : ℚ) : ℤ := pyInt ((sample_size : ℚ) * (1 - a))

/-- Power analysis: n2 = sample_size - n1. -/
def pa_n2 (sample_size : ℤ) (a : ℚ) : ℤ := sample_size - pa_n1 sample_size a

/- ------------------------------------------------------------------
   Result records.
   ------------------------------------------------------------------ -/

structure GroupStats where
  users : ℕ
  conversions : ℕ
  total_revenue : ℚ
  arpu : ℚ
  arpu_ci_lower : ℝ
  arpu_ci_upper : ℝ
  cvr : ℚ
  avg_conversion_value : ℚ
  revenue_variance : Option ℚ
  se : ℝ

structure RateStats where
  users : ℕ
  conversions : ℤ
  conversion_rate : ℚ
  rate_ci_lower : ℝ
  rate_ci_upper : ℝ
  se : ℝ

structure Comparison where
  rate_a : ℚ
  rate_b : ℚ
  rate_diff : ℚ
  diff_ci_lower : ℝ
  diff_ci_upper : ℝ
  se_diff : ℝ
  z_score : ℝ
  p_value : ℝ
  significant : Prop

structure ArpuComparison where
  arpu_a : ℚ
  arpu_b : ℚ
  arpu_diff : ℚ
  diff_ci_lower : ℝ
  diff_ci_upper : ℝ
  se_diff : ℝ
  z_score : ℝ
  p_value : ℝ
  significant : Prop

structure ConversionPlan where
  control_rate : ℚ
  treatment_rate : ℚ
  lift_percentage : ℚ
  allocation : ℚ
  total_sample_size : ℤ
  control_size : ℤ
  treatment_size : ℤ
  expected_control_conversions : ℤ
  expected_treatment_conversions : ℤ
  minimum_detectable_effect : ℚ

structure ArpuPlan where
  base : ConversionPlan
  control_arpu : ℚ
  treatment_arpu : ℚ
  price : ℚ
  control_conversion_rate : ℚ
  treatment_conversion_rate : ℚ

noncomputable section

/- ------------------------------------------------------------------
   Estimator functions (real-valued parts), ab_testing_analyzer.py.
   ------------------------------------------------------------------ -/

/-- calculate_group_stats(users, conversions, alpha): revenue metrics of one
    group; z_critical stands for norm.ppf(1 - alpha/2).  In the single
    degenerate case users = 1 with one conversion, np.var yields NaN
    (revenue_variance = none here) and the float se and CI are then NaN as
    well; those have no real counterpart, the embedding evaluates the
    square root at 0 there, and no theorem asserts anything about se or the
    CI at that input. -/
def calculate_group_stats (z_critical : ℝ) (users : ℕ) (conversions : List ℚ) :
    GroupStats :=
  let n_conversions := conversions.length
  let total_revenue : ℚ := if 0 < n_conversions then conversions.sum else 0
  let arpu : ℚ := if 0 < users then total_revenue / (users : ℚ) else 0
  let cvr : ℚ := if 0 < users then (n_conversions : ℚ) / (users : ℚ) else 0
  let avg_conversion_value : ℚ :=
    if 0 < n_conversions then total_revenue / (n_conversions : ℚ) else 0
  let revenue_variance : Option ℚ :=
    if 0 < n_conversions then np_var (all_revenues users conversions) 1 else some 0
  let se : ℝ :=
    if 0 < users then
      Real.sqrt (((revenue_variance.getD 0 : ℚ) : ℝ) / (users : ℝ))
    else 0
  { users := users
    conversions := n_conversions
    total_revenue := total_revenue
    arpu := arpu
    arpu_ci_lower := (arpu : ℝ) - z_critical * se
    arpu_ci_upper := (arpu : ℝ) + z_critical * se
    cvr := cvr
    avg_conversion_value := avg_conversion_value
    revenue_variance := revenue_variance
    se := se }

/-- The arithmetic of calculate_conversion_rate_stats after its input
    validation has passed. -/
def rateStatsCore (z_critical : ℝ) (users : ℕ) (conversions : ℤ) : RateStats :=
  let conversion_rate : ℚ :=
    if 0 < users then (conversions : ℚ) / (users : ℚ) else 0
  let se : ℝ :=
    if 0 < users ∧ 0 < conversion_rate ∧ conversion_rate < 1 then
      Real.sqrt ((conversion_rate : ℝ) * (1 - (conversion_rate : ℝ)) / (users : ℝ))
    else 0
  { users := users
    conversions := conversions
    conversion_rate := conversion_rate
    rate_ci_lower := max 0 ((conversion_rate : ℝ) - z_critical * se)
    rate_ci_upper := min 1 ((conversion_rate : ℝ) + z_critical * se)
    se := se }

/-- calculate_conversion_rate_stats(users, conversions, alpha).  The source
    raises exactly when conversions fails isinstance(int) (type-level here)
    or is negative; no other branch raises. -/
def calculate_conversion_rate_stats (z_critical : ℝ) (users : ℕ)
    (conversions : ℤ) : Except String RateStats :=
  if conversions < 0 then
    Except.error ("Conversions must be a non-negative integer")
  else
    Except.ok (rateStatsCore z_critical users conversions)

/- ------------------------------------------------------------------
   Pairwise comparator, from ab_testing_analyzer.py lines 100-226.
   ------------------------------------------------------------------ -/

/-- bonferroni_alpha = alpha / n_comparisons if n_comparisons > 0 else alpha. -/
def bonferroni_alpha (n : ℕ) (alpha : ℝ) : ℝ :=
  if 0 < n_comparisons n then alpha / (n_comparisons n : ℝ) else alpha

/-- One row of the conversion-rate pairwise loop body: phi is the normal cdf,
    z_critical is norm.ppf(1 - alpha/2) for the uncorrected alpha, and balpha
    is the Bonferroni-corrected threshold used only by the significance flag. -/
def mkComparison (phi : ℝ → ℝ) (z_critical balpha : ℝ) (gi gj : RateStats) :
    Comparison :=
  let rate_diff := gi.conversion_rate - gj.conversion_rate
  let se_diff : ℝ := Real.sqrt (gi.se ^ 2 + gj.se ^ 2)
  let z_score : ℝ := if 0 < se_diff then (rate_diff : ℝ) / se_diff else 0
  let p_value : ℝ := 2 * (1 - phi |z_score|)
  { rate_a := gi.conversion_rate
    rate_b := gj.conversion_rate
    rate_diff := rate_diff
    diff_ci_lower := (rate_diff : ℝ) - z_critical * se_diff
    diff_ci_upper := (rate_diff : ℝ) + z_critical * se_diff
    se_diff := se_diff
    z_score := z_score
    p_value := p_value
    significant := p_value < balpha }

/-- All pairwise conversion-rate comparisons of a stats table. -/
def comparisonsOf (phi : ℝ → ℝ) (z_critical alpha : ℝ)
    (stats : List RateStats) : List Comparison :=
  (pairs stats).map fun g =>
    mkComparison phi z_critical (bonferroni_alpha stats.length alpha) g.1 g.2

/-- compare_groups_conversion_rate: per-group stats are computed first (the
    first invalid group aborts the whole call), then the pairwise table. -/
def compare_groups_conversion_rate (phi : ℝ → ℝ) (z_critical alpha : ℝ)
    (groups : List (ℕ × ℤ)) : Except String (List RateStats × List Comparison) :=
  match groups.mapM (fun g => calculate_conversion_rate_stats z_critical g.1 g.2) with
  | Except.error e => Except.error e
  | Except.ok stats => Except.ok (stats, comparisonsOf phi z_critical alpha stats)

/-- One row of the ARPU pairwise loop body (same arithmetic as the rate one,
    over the revenue estimates). -/
def mkArpuComparison (phi : ℝ → ℝ) (z_critical balpha : ℝ)
    (gi gj : GroupStats) : ArpuComparison :=
  let arpu_diff := gi.arpu - gj.arpu
  let se_diff : ℝ := Real.sqrt (gi.se ^ 2 + gj.se ^ 2)
  let z_score : ℝ := if 0 < se_diff then (arpu_diff : ℝ) / se_diff else 0
  let p_value : ℝ := 2 * (1 - phi |z_score|)
  { arpu_a := gi.arpu
    arpu_b := gj.arpu
    arpu_diff := arpu_diff
    diff_ci_lower := (arpu_diff : ℝ) - z_critical * se_diff
    diff_ci_upper := (arpu_diff : ℝ) + z_critical * se_diff
    se_diff := se_diff
    z_score := z_score
    p_value := p_value
    significant := p_value < balpha }

/-- All pairwise ARPU comparisons of a stats table. -/
def comparisonsOfArpu (phi : ℝ → ℝ) (z_critical alpha : ℝ)
    (stats : List GroupStats) : List ArpuComparison :=
  (pairs stats).map fun g =>
    mkArpuComparison phi z_critical (bonferroni_alpha stats.length alpha) g.1 g.2

/-- compare_groups_arpu: calculate_group_stats never raises, so the ARPU
    pipeline is total. -/
def compare_groups_arpu (phi : ℝ → ℝ) (z_critical alpha : ℝ)
    (groups : List (ℕ × List ℚ)) : List GroupStats × List ArpuComparison :=
  let stats := groups.map fun g => calculate_group_stats z_critical g.1 g.2
  (stats, comparisonsOfArpu phi z_critical alpha stats)

/- ------------------------------------------------------------------
   Sample-size / power module, from sample_size_calculator.py.
   z_alpha_plus_beta abbreviates norm.ppf(1 - alpha/2) + norm.ppf(power),
   the value cached by the constructor.
   ------------------------------------------------------------------ -/

/-- numerator = z_alpha_plus_beta^2 * pooled_variance * (1 + 1/allocation). -/
def ss_numerator (z_alpha_plus_beta : ℝ) (control_rate lift a : ℚ) : ℝ :=
  z_alpha_plus_beta ^ 2 * (pooled_variance control_rate lift : ℝ) * (1 + 1 / (a : ℝ))

/-- total_sample_size = int(np.ceil(numerator / denominator)). -/
def total_sample_size (z_alpha_plus_beta : ℝ) (control_rate lift a : ℚ) : ℤ :=
  ⌈ss_numerator z_alpha_plus_beta control_rate lift a /
    (ss_denominator control_rate lift : ℝ)⌉

/-- control_size = int(total_sample_size * (1 - allocation_ratio)). -/
def control_size (z_alpha_plus_beta : ℝ) (control_rate lift a : ℚ) : ℤ :=
  pyInt ((total_sample_size z_alpha_plus_beta control_rate lift a : ℚ) * (1 - a))

/-- treatment_size = total_sample_size - control_size. -/
def treatment_size (z_alpha_plus_beta : ℝ) (control_rate lift a : ℚ) : ℤ :=
  total_sample_size z_alpha_plus_beta control_rate lift a -
    control_size z_alpha_plus_beta control_rate lift a

/-- expected_control_conversions = int(control_size * control_rate). -/
def expected_control_conversions (z_alpha_plus_beta : ℝ)
    (control_rate lift a : ℚ) : ℤ :=
  pyInt ((control_size z_alpha_plus_beta control_rate lift a : ℚ) * control_rate)

/-- expected_treatment_conversions = int(treatment_size * treatment_rate). -/
def expected_treatment_conversions (z_alpha_plus_beta : ℝ)
    (control_rate lift a : ℚ) : ℤ :=
  pyInt ((treatment_size z_alpha_plus_beta control_rate lift a : ℚ) *
    treatment_rate control_rate lift)

/-- The result record of calculate_conversion_rate_sample_size (the metadata
    fields test_type, confidence_level and power, copied verbatim from the
    arguments of the call, are omitted). -/
def conversion_rate_plan (z_alpha_plus_beta : ℝ) (control_rate lift a : ℚ) :
    ConversionPlan :=
  { control_rate := control_rate
    treatment_rate := treatment_rate control_rate lift
    lift_percentage := lift
    allocation := a
    total_sample_size := total_sample_size z_alpha_plus_beta control_rate lift a
    control_size := control_size z_alpha_plus_beta control_rate lift a
    treatment_size := treatment_size z_alpha_plus_beta control_rate lift a
    expected_control_conversions :=
      expected_control_conversions z_alpha_plus_beta control_rate lift a
    expected_treatment_conversions :=
      expected_treatment_conversions z_alpha_plus_beta control_rate lift a
    minimum_detectable_effect := minimum_detectable_effect control_rate lift }

/-- calculate_conversion_rate_sample_size with its three domain checks, in
    source order. -/
def calculate_conversion_rate_sample_size (z_alpha_plus_beta : ℝ)
    (control_rate lift a : ℚ) : Except String ConversionPlan :=
  if ¬(0 < control_rate ∧ control_rate < 1) then
    Except.error ("Control rate must be between 0 and 1")
  else if lift ≤ 0 then
    Except.error ("Lift percentage must be positive")
  else if ¬(0 < a ∧ a < 1) then
    Except.error ("Allocation ratio must be between 0 and 1")
  else
    Except.ok (conversion_rate_plan z_alpha_plus_beta control_rate lift a)

/-- calculate_arpu_sample_size: own four checks in source order, then
    delegation to the conversion-rate calculation on control_arpu / price,
    then the ARPU fields are attached to the delegated result. -/
def calculate_arpu_sample_size (z_alpha_plus_beta : ℝ)
    (control_arpu lift price a : ℚ) : Except String ArpuPlan :=
  if control_arpu ≤ 0 then
    Except.error ("Control ARPU must be positive")
  else if lift ≤ 0 then
    Except.error ("Lift percentage must be positive")
  else if price ≤ 0 then
    Except.error ("Price must be positive")
  else if ¬(0 < a ∧ a < 1) then
    Except.error ("Allocation ratio must be between 0 and 1")
  else
    (calculate_conversion_rate_sample_size z_alpha_plus_beta
        (control_arpu / price) lift a).map fun r =>
      { base := r
        control_arpu := control_arpu
        treatment_arpu := control_arpu * (1 + lift)
        price := price
        control_conversion_rate := control_arpu / price
        treatment_conversion_rate := control_arpu * (1 + lift) / price }

/- Power analysis (conversion_rate branch of calculate_power_analysis),
   lines 165-196 of sample_size_calculator.py. -/

/-- se = np.sqrt(pooled_variance * (1/n1 + 1/n2)). -/
def pa_se (control_rate lift : ℚ) (sample_size : ℤ) (a : ℚ) : ℝ :=
  Real.sqrt ((pooled_variance control_rate lift : ℝ) *
    (1 / (pa_n1 sample_size a : ℝ) + 1 / (pa_n2 sample_size a : ℝ)))

/-- z_power = effect_size / se - z_alpha, with effect_size the minimum
    detectable effect treatment_rate - control_rate. -/
def pa_z_power (z_alpha : ℝ) (control_rate lift : ℚ) (sample_size : ℤ)
    (a : ℚ) : ℝ :=
  (minimum_detectable_effect control_rate lift : ℝ) /
    pa_se control_rate lift sample_size a - z_alpha

/-- power = norm.cdf(z_power), with the normal cdf passed as phi. -/
def pa_power (phi : ℝ → ℝ) (z_alpha : ℝ) (control_rate lift : ℚ)
    (sample_size : ℤ) (a : ℚ) : ℝ :=
  phi (pa_z_power z_alpha control_rate lift sample_size a)

end

end ABTest

namespace ABTest

/- ------------------------------------------------------------------
   Helper lemmas.
   ------------------------------------------------------------------ -/

lemma pyInt_eq_floor {x : ℚ} (hx : 0 ≤ x) : pyInt x = ⌊x⌋ := by
  unfold pyInt
  rw [if_neg (not_lt.mpr hx)]

lemma pyInt_nonpos {x : ℚ} (hx : x ≤ 0) : pyInt x ≤ 0 := by
  unfold pyInt
  split
  · simp only [neg_nonpos]
    exact Int.floor_nonneg.mpr (by linarith)
  · have hx0 : x = 0 := le_antisymm hx (not_lt.mp (by assumption))
    simp [hx0]

lemma le_pyInt_of_nonpos {x : ℚ} (hx : x ≤ 0) : x ≤ (pyInt x : ℚ) := by
  unfold pyInt
  split
  · push_cast
    have := Int.floor_le (-x)
    linarith
  · have hx0 : x = 0 := le_antisymm hx (not_lt.mp (by assumption))
    simp [hx0]

lemma rateStatsCore_se_nonneg (z : ℝ) (users : ℕ) (conversions : ℤ) :
    0 ≤ (rateStatsCore z users conversions).se := by
  simp only [rateStatsCore]
  split <;> split <;>
    first
      | exact Real.sqrt_nonneg _
      | exact le_rfl

lemma sum_sq_sub (c : ℚ) (v : List ℚ) :
    (v.map fun x => (x - c) ^ 2).sum
      = (v.map fun x => x ^ 2).sum - 2 * c * v.sum + (v.length : ℚ) * c ^ 2 := by
  induction v with
  | nil => simp
  | cons a t ih =>
    simp only [List.map_cons, List.sum_cons, ih, List.length_cons]
    push_cast
    ring

lemma np_var_one_eq_unbiased (v : List ℚ) (hv : v.length ≠ 1) :
    np_var v 1 = some (unbiased_sample_variance v) := by
  have hdiv : ¬((v.length : ℚ) - ((1 : ℕ) : ℚ) = 0) := by
    intro h0
    apply hv
    have h1 : (v.length : ℚ) = 1 := by
      push_cast at h0
      linarith
    exact_mod_cast h1
  unfold np_var
  rw [if_neg hdiv]
  congr 1
  rcases v with _ | ⟨a, t⟩
  · simp [unbiased_sample_variance, list_mean]
  · have hn : (((a :: t).length : ℚ)) ≠ 0 := by
      simp only [List.length_cons]
      push_cast
      positivity
    unfold unbiased_sample_variance list_mean
    rw [sum_sq_sub]
    have hd : (((a :: t).length : ℚ)) - ((1 : ℕ) : ℚ) = (((a :: t).length : ℚ)) - 1 := by
      norm_num
    rw [hd]
    congr 1
    field_simp
    ring

lemma np_var_len_one (v : List ℚ) (hv : v.length = 1) : np_var v 1 = none := by
  unfold np_var
  rw [if_pos]
  rw [hv]
  norm_num

lemma unbiased_replicate_zero (n : ℕ) :
    unbiased_sample_variance (List.replicate n (0 : ℚ)) = 0 := by
  simp [unbiased_sample_variance, list_mean]

end ABTest

namespace ABTest

/-- C6: for every users > 0 and integer conversions in [0, users], the rate
    estimator returns a conversion rate with 0 <= rate <= 1 and, the interval
    endpoints being clamped to [0, 1], rate_ci_lower <= rate <= rate_ci_upper.
    The hypothesis 0 <= z holds at the default alpha = 0.05, where z stands
    for norm.ppf(0.975), approximately 1.96, and for every alpha <= 1. -/
theorem rate_ci_brackets_c6 (z : ℝ) (hz : 0 ≤ z) (users : ℕ) (conversions : ℤ)
    (hu : 0 < users) (hc0 : 0 ≤ conversions) (hcu : conversions ≤ (users : ℤ)) :
    0 ≤ (rateStatsCore z users conversions).conversion_rate ∧
    (rateStatsCore z users conversions).conversion_rate ≤ 1 ∧
    (rateStatsCore z users conversions).rate_ci_lower ≤
      ((rateStatsCore z users conversions).conversion_rate : ℝ) ∧
    ((rateStatsCore z users conversions).conversion_rate : ℝ) ≤
      (rateStatsCore z users conversions).rate_ci_upper := by
  have husq : (0 : ℚ) < (users : ℚ) := by exact_mod_cast hu
  have hrate : (rateStatsCore z users conversions).conversion_rate
      = (conversions : ℚ) / (users : ℚ) := by
    simp [rateStatsCore, hu]
  have h0 : 0 ≤ (rateStatsCore z users conversions).conversion_rate := by
    rw [hrate]
    exact div_nonneg (by exact_mod_cast hc0) husq.le
  have h1 : (rateStatsCore z users conversions).conversion_rate ≤ 1 := by
    rw [hrate, div_le_one husq]
    exact_mod_cast hcu
  have hse := rateStatsCore_se_nonneg z users conversions
  have hzs : 0 ≤ z * (rateStatsCore z users conversions).se := mul_nonneg hz hse
  have hlo : (rateStatsCore z users conversions).rate_ci_lower
      = max 0 (((rateStatsCore z users conversions).conversion_rate : ℝ)
          - z * (rateStatsCore z users conversions).se) := rfl
  have hup : (rateStatsCore z users conversions).rate_ci_upper
      = min 1 (((rateStatsCore z users conversions).conversion_rate : ℝ)
          + z * (rateStatsCore z users conversions).se) := rfl
  refine ⟨h0, h1, ?_, ?_⟩
  · rw [hlo]
    apply max_le
    · exact_mod_cast h0
    · linarith
  · rw [hup]
    apply le_min
    · exact_mod_cast h1
    · linarith

/-- Witness for C6 at users = 1000, conversions = 73, z = 2. -/
theorem rate_ci_brackets_c6_witness :
    0 ≤ (rateStatsCore 2 1000 73).conversion_rate ∧
    (rateStatsCore 2 1000 73).conversion_rate ≤ 1 ∧
    (rateStatsCore 2 1000 73).rate_ci_lower ≤
      ((rateStatsCore 2 1000 73).conversion_rate : ℝ) ∧
    ((rateStatsCore 2 1000 73).conversion_rate : ℝ) ≤
      (rateStatsCore 2 1000 73).rate_ci_upper :=
  rate_ci_brackets_c6 2 zero_le_two 1000 73 (by decide) (by decide) (by decide)

/-- C2 counterexample: with users = 10 and conversions = 20 > users the
    estimator does not raise; it returns a full stats record whose rate is 2.
    The value of z, here 1.96, plays no role in the validation branch.  This
    refutes the part of C2 that asserts a failure for conversions > users:
    the source checks only isinstance(int) and negativity. -/
theorem rate_overflow_c2_counterexample :
    calculate_conversion_rate_stats (49/25 : ℝ) 10 20 =
      Except.ok { users := 10, conversions := 20, conversion_rate := 2,
                  rate_ci_lower := 2, rate_ci_upper := 1, se := 0 } := by
  unfold calculate_conversion_rate_stats
  rw [if_neg (by decide : ¬((20 : ℤ) < 0))]
  congr 1
  unfold rateStatsCore
  have hrate : (if 0 < (10 : ℕ) then ((20 : ℤ) : ℚ) / ((10 : ℕ) : ℚ) else 0) = 2 := by
    norm_num
  simp only [hrate]
  have hcond : ¬(0 < (10 : ℕ) ∧ 0 < (2 : ℚ) ∧ (2 : ℚ) < 1) := by norm_num
  rw [if_neg hcond]
  simp only [RateStats.mk.injEq]
  refine ⟨by trivial, by trivial, by trivial, ?_, ?_, by trivial⟩
  · rw [mul_zero, sub_zero]
    rw [max_eq_right (by norm_num : (0 : ℝ) ≤ ((2 : ℚ) : ℝ))]
    norm_num
  · rw [mul_zero, add_zero]
    rw [min_eq_left (by norm_num : (1 : ℝ) ≤ ((2 : ℚ) : ℝ))]

/-- C2 amended: the rate estimator fails with the InvalidInput message
    exactly when conversions is negative (the non-integral case is rejected
    by the isinstance int check, which the integer argument type models);
    for users > 0 and conversions > users it does not fail and returns a
    record whose conversion rate exceeds 1. -/
theorem rate_validation_c2_amended (z : ℝ) (users : ℕ) (conversions : ℤ) :
    (calculate_conversion_rate_stats z users conversions
        = Except.error ("Conversions must be a non-negative integer")
      ↔ conversions < 0) ∧
    (0 < users → (users : ℤ) < conversions →
      calculate_conversion_rate_stats z users conversions
          = Except.ok (rateStatsCore z users conversions) ∧
        1 < (rateStatsCore z users conversions).conversion_rate) := by
  constructor
  · constructor
    · intro h
      by_contra hc
      push_neg at hc
      unfold calculate_conversion_rate_stats at h
      rw [if_neg (not_lt.mpr hc)] at h
      exact Except.noConfusion h
    · intro h
      unfold calculate_conversion_rate_stats
      rw [if_pos h]
  · intro hu hlt
    have hc : ¬(conversions < 0) := by
      have hun : (0 : ℤ) ≤ (users : ℤ) := Int.natCast_nonneg users
      omega
    refine ⟨?_, ?_⟩
    · unfold calculate_conversion_rate_stats
      rw [if_neg hc]
    · have hrate : (rateStatsCore z users conversions).conversion_rate
          = (conversions : ℚ) / (users : ℚ) := by
        simp [rateStatsCore, hu]
      rw [hrate, one_lt_div (by exact_mod_cast hu : (0 : ℚ) < (users : ℚ))]
      exact_mod_cast hlt

/-- Witness for the amended C2 at users = 10, conversions = 30. -/
theorem rate_validation_c2_witness :
    calculate_conversion_rate_stats (49/25 : ℝ) 10 30
        = Except.ok (rateStatsCore (49/25 : ℝ) 10 30) ∧
      1 < (rateStatsCore (49/25 : ℝ) 10 30).conversion_rate :=
  (rate_validation_c2_amended (49/25 : ℝ) 10 30).2 (by decide) (by decide)

/-- C3: in the revenue estimator the padded vector has length users, and for
    every group with users different from 1 the revenue_variance field
    carries exactly the unbiased (n-1 denominator) sample variance of that
    vector (stated independently through the sum of squares identity); with
    no conversions it carries 0.  The claim and the spec further assign the
    value 0 to every group with users <= 1, but at users = 1 with one
    conversion the source divides the zero deviation sum by the zero
    quantity users - 1 inside np.var, and numpy returns NaN (none here) with
    a RuntimeWarning instead of the 0 the spec's degenerate-case design
    prescribes: the code diverges from the claim at that input. -/
theorem revenue_variance_c3 (z : ℝ) (users : ℕ) (cs : List ℚ)
    (h : cs.length ≤ users) :
    (all_revenues users cs).length = users ∧
    (users ≠ 1 →
      (calculate_group_stats z users cs).revenue_variance
        = some (unbiased_sample_variance (all_revenues users cs))) ∧
    (cs = [] → (calculate_group_stats z users cs).revenue_variance = some 0) ∧
    (users = 1 → cs ≠ [] →
      (calculate_group_stats z users cs).revenue_variance = none) := by
  have hlen : (all_revenues users cs).length = users := by
    simp only [all_revenues, List.length_append, List.length_replicate]
    omega
  have hvar : (calculate_group_stats z users cs).revenue_variance
      = if 0 < cs.length then np_var (all_revenues users cs) 1 else some 0 := rfl
  refine ⟨hlen, ?_, ?_, ?_⟩
  · intro hu1
    rw [hvar]
    rcases eq_or_ne cs [] with hcs | hcs
    · subst hcs
      simp only [List.length_nil, lt_self_iff_false, if_false, all_revenues,
        List.nil_append, Nat.sub_zero]
      rw [unbiased_replicate_zero]
    · rw [if_pos (List.length_pos.mpr hcs)]
      apply np_var_one_eq_unbiased
      rw [hlen]
      exact hu1
  · intro hcs
    subst hcs
    simp [hvar]
  · intro hu1 hcs
    rw [hvar, if_pos (List.length_pos.mpr hcs)]
    apply np_var_len_one
    rw [hlen, hu1]

/-- Witness for C3 at the degenerate input users = 1 with the single
    conversion revenue 5, where the variance is the NaN marker none. -/
theorem revenue_variance_c3_witness :
    (all_revenues 1 [5]).length = 1 ∧
    ((1 : ℕ) ≠ 1 →
      (calculate_group_stats 2 1 [5]).revenue_variance
        = some (unbiased_sample_variance (all_revenues 1 [5]))) ∧
    (([5] : List ℚ) = [] →
      (calculate_group_stats 2 1 [5]).revenue_variance = some 0) ∧
    ((1 : ℕ) = 1 → ([5] : List ℚ) ≠ [] →
      (calculate_group_stats 2 1 [5]).revenue_variance = none) :=
  revenue_variance_c3 2 1 [5] (by decide)

end ABTest

namespace ABTest

lemma two_dvd_mul_pred (n : ℕ) : 2 ∣ n * (n - 1) := by
  rcases n with _ | m
  · simp
  · rw [Nat.succ_sub_one, Nat.mul_comm]
    exact (Nat.even_mul_succ_self m).two_dvd

lemma n_comparisons_pos {n : ℕ} (hn : 2 ≤ n) : 0 < n_comparisons n := by
  unfold n_comparisons
  have h1 : 1 ≤ n - 1 := by omega
  have h2 : 2 * 1 ≤ n * (n - 1) := Nat.mul_le_mul hn h1
  exact Nat.div_pos (by omega) (by omega)

lemma n_comparisons_cast {n : ℕ} (hn : 1 ≤ n) :
    ((n_comparisons n : ℕ) : ℝ) = (n : ℝ) * ((n : ℝ) - 1) / 2 := by
  unfold n_comparisons
  rw [Nat.cast_div (two_dvd_mul_pred n) (by norm_num)]
  rw [Nat.cast_mul, Nat.cast_sub hn]
  norm_num

lemma comparisonsOf_significant (phi : ℝ → ℝ) (zc alpha : ℝ)
    (stats : List RateStats) :
    ∀ c ∈ comparisonsOf phi zc alpha stats,
      c.significant ↔ c.p_value < bonferroni_alpha stats.length alpha := by
  intro c hc
  unfold comparisonsOf at hc
  obtain ⟨g, hg, rfl⟩ := List.mem_map.mp hc
  exact Iff.rfl

lemma comparisonsOfArpu_significant (phi : ℝ → ℝ) (zc alpha : ℝ)
    (stats : List GroupStats) :
    ∀ c ∈ comparisonsOfArpu phi zc alpha stats,
      c.significant ↔ c.p_value < bonferroni_alpha stats.length alpha := by
  intro c hc
  unfold comparisonsOfArpu at hc
  obtain ⟨g, hg, rfl⟩ := List.mem_map.mp hc
  exact Iff.rfl

/-- C4: for a stats table of n >= 2 groups (either metric), the corrected
    threshold equals alpha divided by the pair count n * (n - 1) / 2, that
    count is exact (no rounding is lost in the floor division), every
    produced comparison is flagged significant exactly when its p-value is
    below the corrected threshold, alpha is used unmodified when the pair
    count is 0, and the pairwise table of the full conversion-rate pipeline
    is the one produced by this comparator. -/
theorem bonferroni_c4 (phi : ℝ → ℝ) (zc alpha : ℝ) (stats : List RateStats)
    (astats : List GroupStats) (hn : 2 ≤ stats.length) (hm : 2 ≤ astats.length) :
    bonferroni_alpha stats.length alpha
        = alpha / ((n_comparisons stats.length : ℕ) : ℝ) ∧
    ((n_comparisons stats.length : ℕ) : ℝ)
        = (stats.length : ℝ) * ((stats.length : ℝ) - 1) / 2 ∧
    (∀ c ∈ comparisonsOf phi zc alpha stats,
        c.significant ↔ c.p_value < alpha / ((n_comparisons stats.length : ℕ) : ℝ)) ∧
    (∀ c ∈ comparisonsOfArpu phi zc alpha astats,
        c.significant ↔ c.p_value < alpha / ((n_comparisons astats.length : ℕ) : ℝ)) ∧
    (∀ (k : ℕ) (b : ℝ), n_comparisons k = 0 → bonferroni_alpha k b = b) ∧
    (∀ (groups : List (ℕ × ℤ)) (res : List RateStats × List Comparison),
        compare_groups_conversion_rate phi zc alpha groups = Except.ok res →
          res.2 = comparisonsOf phi zc alpha res.1) := by
  have hb : bonferroni_alpha stats.length alpha
      = alpha / ((n_comparisons stats.length : ℕ) : ℝ) := by
    unfold bonferroni_alpha
    rw [if_pos (n_comparisons_pos hn)]
  have hb2 : bonferroni_alpha astats.length alpha
      = alpha / ((n_comparisons astats.length : ℕ) : ℝ) := by
    unfold bonferroni_alpha
    rw [if_pos (n_comparisons_pos hm)]
  refine ⟨hb, n_comparisons_cast (by omega), ?_, ?_, ?_, ?_⟩
  · intro c hc
    rw [← hb]
    exact comparisonsOf_significant phi zc alpha stats c hc
  · intro c hc
    rw [← hb2]
    exact comparisonsOfArpu_significant phi zc alpha astats c hc
  · intro k b hk
    unfold bonferroni_alpha
    rw [hk]
    simp
  · intro groups res h
    unfold compare_groups_conversion_rate at h
    split at h
    · exact Except.noConfusion h
    · injection h with h2
      rw [← h2]

/-- Witness for C4: two conversion-rate groups and two revenue groups. -/
theorem bonferroni_c4_witness :
    bonferroni_alpha
        ([rateStatsCore 2 1000 73, rateStatsCore 2 1000 126] : List RateStats).length
        (1/20)
      = (1/20 : ℝ) /
        ((n_comparisons
          ([rateStatsCore 2 1000 73, rateStatsCore 2 1000 126] : List RateStats).length
            : ℕ) : ℝ) :=
  (bonferroni_c4 (fun _ => 0) 2 (1/20)
    [rateStatsCore 2 1000 73, rateStatsCore 2 1000 126]
    [calculate_group_stats 2 10 [5], calculate_group_stats 2 10 []]
    (by simp) (by simp)).1

/-- C9: at control_rate = 0.9, lift = 1.5, allocation = 0.5 the preconditions
    of the rate sizing all pass, so no error is raised, even though the
    treatment rate 2.25 exceeds 1; the pooled variance is negative and the
    returned total and both arm sizes are non-positive, for every value of
    the cached critical constant z_alpha_plus_beta. -/
theorem out_of_domain_sizes_c9 (zc : ℝ) :
    calculate_conversion_rate_sample_size zc (9/10) (3/2) (1/2)
        = Except.ok (conversion_rate_plan zc (9/10) (3/2) (1/2)) ∧
    1 < treatment_rate (9/10) (3/2) ∧
    pooled_variance (9/10) (3/2) < 0 ∧
    total_sample_size zc (9/10) (3/2) (1/2) ≤ 0 ∧
    control_size zc (9/10) (3/2) (1/2) ≤ 0 ∧
    treatment_size zc (9/10) (3/2) (1/2) ≤ 0 := by
  have hpvq : pooled_variance (9/10) (3/2) < 0 := by
    norm_num [pooled_variance, pooled_rate, treatment_rate]
  have htot : total_sample_size zc (9/10) (3/2) (1/2) ≤ 0 := by
    unfold total_sample_size
    rw [show ((0 : ℤ) = ((0 : ℤ))) from rfl]
    rw [Int.ceil_le]
    push_cast
    unfold ss_numerator
    apply div_nonpos_of_nonpos_of_nonneg
    · have hpv : ((pooled_variance (9/10) (3/2) : ℚ) : ℝ) < 0 := by
        exact_mod_cast hpvq
      have hfac : (0 : ℝ) < 1 + 1 / (((1/2 : ℚ)) : ℝ) := by norm_num
      nlinarith [sq_nonneg zc]
    · have hden : (0 : ℚ) ≤ ss_denominator (9/10) (3/2) := by
        unfold ss_denominator
        positivity
      exact_mod_cast hden
  have htotq : ((total_sample_size zc (9/10) (3/2) (1/2) : ℤ) : ℚ) ≤ 0 := by
    exact_mod_cast htot
  have hxle : ((total_sample_size zc (9/10) (3/2) (1/2) : ℤ) : ℚ) * (1 - 1/2) ≤ 0 := by
    linarith
  have hcs : control_size zc (9/10) (3/2) (1/2) ≤ 0 := by
    unfold control_size
    exact pyInt_nonpos hxle
  refine ⟨?_, by norm_num [treatment_rate], hpvq, htot, hcs, ?_⟩
  · unfold calculate_conversion_rate_sample_size
    norm_num
  · unfold treatment_size
    have h1 : ((total_sample_size zc (9/10) (3/2) (1/2) : ℤ) : ℚ)
        ≤ ((control_size zc (9/10) (3/2) (1/2) : ℤ) : ℚ) := by
      unfold control_size
      calc ((total_sample_size zc (9/10) (3/2) (1/2) : ℤ) : ℚ)
          ≤ ((total_sample_size zc (9/10) (3/2) (1/2) : ℤ) : ℚ) * (1 - 1/2) := by
            linarith
        _ ≤ _ := le_pyInt_of_nonpos hxle
    have h2 : total_sample_size zc (9/10) (3/2) (1/2)
        ≤ control_size zc (9/10) (3/2) (1/2) := by exact_mod_cast h1
    omega

/-- Witness instance of C9 at z_alpha_plus_beta = 2.8. -/
theorem out_of_domain_sizes_c9_witness :
    calculate_conversion_rate_sample_size (14/5 : ℝ) (9/10) (3/2) (1/2)
        = Except.ok (conversion_rate_plan (14/5 : ℝ) (9/10) (3/2) (1/2)) ∧
    1 < treatment_rate (9/10) (3/2) ∧
    pooled_variance (9/10) (3/2) < 0 ∧
    total_sample_size (14/5 : ℝ) (9/10) (3/2) (1/2) ≤ 0 ∧
    control_size (14/5 : ℝ) (9/10) (3/2) (1/2) ≤ 0 ∧
    treatment_size (14/5 : ℝ) (9/10) (3/2) (1/2) ≤ 0 :=
  out_of_domain_sizes_c9 (14/5 : ℝ)

end ABTest

namespace ABTest

lemma is_ok_map {ε α β : Type} (f : α → β) (e : Except ε α) :
    is_ok (e.map f) = is_ok e := by
  cases e <;> rfl

lemma conversion_ok_iff (zc : ℝ) (p l a : ℚ) :
    is_ok (calculate_conversion_rate_sample_size zc p l a) = true
      ↔ ((0 < p ∧ p < 1) ∧ 0 < l ∧ (0 < a ∧ a < 1)) := by
  unfold calculate_conversion_rate_sample_size
  by_cases hp : 0 < p ∧ p < 1
  · rw [if_neg (not_not_intro hp)]
    by_cases hl : 0 < l
    · rw [if_neg (not_le.mpr hl)]
      by_cases ha : 0 < a ∧ a < 1
      · rw [if_neg (not_not_intro ha)]
        simp [is_ok, hp, hl, ha]
      · rw [if_pos ha]
        simp [is_ok, ha]
    · rw [if_pos (not_lt.mp hl)]
      simp [is_ok, hl]
  · rw [if_pos hp]
    simp [is_ok, hp]

/-- C10: the ARPU sizing variant succeeds exactly when its own four checks
    pass and the derived rate control_arpu / price lies in (0, 1); in
    particular, when its own checks pass but control_arpu >= price, it fails
    with the rate-domain message delegated from the conversion-rate
    calculation instead of returning a plan. -/
theorem arpu_delegated_domain_c10 (zc : ℝ) (control_arpu lift price a : ℚ) :
    (is_ok (calculate_arpu_sample_size zc control_arpu lift price a) = true
      ↔ (0 < control_arpu ∧ 0 < lift ∧ 0 < price ∧ (0 < a ∧ a < 1) ∧
          0 < control_arpu / price ∧ control_arpu / price < 1)) ∧
    (0 < control_arpu → 0 < lift → 0 < price → 0 < a → a < 1 →
      price ≤ control_arpu →
      calculate_arpu_sample_size zc control_arpu lift price a
        = Except.error ("Control rate must be between 0 and 1")) := by
  constructor
  · unfold calculate_arpu_sample_size
    by_cases h1 : control_arpu ≤ 0
    · rw [if_pos h1]
      simp only [is_ok, Bool.false_eq_true, false_iff]
      rintro ⟨ha, -⟩
      exact absurd ha (not_lt.mpr h1)
    · rw [if_neg h1]
      by_cases h2 : lift ≤ 0
      · rw [if_pos h2]
        simp only [is_ok, Bool.false_eq_true, false_iff]
        rintro ⟨-, hl, -⟩
        exact absurd hl (not_lt.mpr h2)
      · rw [if_neg h2]
        by_cases h3 : price ≤ 0
        · rw [if_pos h3]
          simp only [is_ok, Bool.false_eq_true, false_iff]
          rintro ⟨-, -, hpr, -⟩
          exact absurd hpr (not_lt.mpr h3)
        · rw [if_neg h3]
          by_cases h4 : 0 < a ∧ a < 1
          · rw [if_neg (not_not_intro h4)]
            rw [is_ok_map, conversion_ok_iff]
            constructor
            · rintro ⟨⟨hr0, hr1⟩, hl, ha⟩
              exact ⟨not_le.mp h1, hl, not_le.mp h3, h4, hr0, hr1⟩
            · rintro ⟨-, hl, -, -, hr0, hr1⟩
              exact ⟨⟨hr0, hr1⟩, hl, h4⟩
          · rw [if_pos h4]
            simp only [is_ok, Bool.false_eq_true, false_iff]
            rintro ⟨-, -, -, ha, -⟩
            exact h4 ha
  · intro ha0 hl hpr ha2 ha3 hle
    unfold calculate_arpu_sample_size
    rw [if_neg (not_le.mpr ha0), if_neg (not_le.mpr hl), if_neg (not_le.mpr hpr),
      if_neg (not_not_intro ⟨ha2, ha3⟩)]
    unfold calculate_conversion_rate_sample_size
    rw [if_pos]
    · rfl
    · rintro ⟨-, hr1⟩
      have h1le : (1 : ℚ) ≤ control_arpu / price := (one_le_div hpr).mpr hle
      linarith

lemma five_pos_q : (0 : ℚ) < 5 := by norm_num

lemma tenth_pos_q : (0 : ℚ) < 1/10 := by norm_num

lemma two_pos_q : (0 : ℚ) < 2 := by norm_num

lemma half_pos_q : (0 : ℚ) < 1/2 := by norm_num

lemma half_lt_one_q : (1 : ℚ)/2 < 1 := by norm_num

lemma two_le_five_q : (2 : ℚ) ≤ 5 := by norm_num

/-- Witness for C10 at control_arpu = 5, lift = 0.1, price = 2. -/
theorem arpu_delegated_domain_c10_witness :
    calculate_arpu_sample_size 2 5 (1/10) 2 (1/2)
      = Except.error ("Control rate must be between 0 and 1") :=
  (arpu_delegated_domain_c10 2 5 (1/10) 2 (1/2)).2 five_pos_q tenth_pos_q
    two_pos_q half_pos_q half_lt_one_q two_le_five_q

end ABTest

namespace ABTest

lemma pooled_variance_pos {p l : ℚ} (hp : 0 < p) (hl : 0 < l)
    (ht : treatment_rate p l < 1) : 0 < pooled_variance p l := by
  unfold treatment_rate at ht
  have hp1 : p < 1 := by nlinarith
  unfold pooled_variance pooled_rate treatment_rate
  have h1 : 0 < (p + p * (1 + l)) / 2 := by nlinarith
  have h2 : (p + p * (1 + l)) / 2 < 1 := by nlinarith
  nlinarith

lemma total_sample_size_nonneg (zc : ℝ) {p l a : ℚ} (hp : 0 < p) (hl : 0 < l)
    (ht : treatment_rate p l < 1) (ha0 : 0 < a) :
    0 ≤ total_sample_size zc p l a := by
  unfold total_sample_size
  apply Int.ceil_nonneg
  apply div_nonneg
  · unfold ss_numerator
    have h1 : (0 : ℝ) ≤ ((pooled_variance p l : ℚ) : ℝ) := by
      exact_mod_cast (pooled_variance_pos hp hl ht).le
    have ha0r : (0 : ℝ) < ((a : ℚ) : ℝ) := by exact_mod_cast ha0
    have h2 : (0 : ℝ) ≤ 1 + 1 / ((a : ℚ) : ℝ) := by positivity
    exact mul_nonneg (mul_nonneg (sq_nonneg zc) h1) h2
  · have hd : (0 : ℚ) ≤ ss_denominator p l := by
      unfold ss_denominator
      positivity
    exact_mod_cast hd

/-- C8: for every valid sizing input (control rate in (0,1), positive lift
    with a treatment rate still below 1, allocation in (0,1)), the split of
    the returned total is exactly n_control = floor(n_total * (1 - a)) with
    n_treatment = n_total - n_control, the two arm sizes always sum back to
    n_total, and the expected conversions of each arm are the floors of
    arm size times arm rate (int() truncation coincides with floor because
    every quantity involved is nonnegative). -/
theorem sample_split_c8 (zc : ℝ) (p l a : ℚ)
    (hp : 0 < p) (hl : 0 < l) (ht : treatment_rate p l < 1)
    (ha0 : 0 < a) (ha1 : a < 1) :
    control_size zc p l a = ⌊(total_sample_size zc p l a : ℚ) * (1 - a)⌋ ∧
    treatment_size zc p l a
        = total_sample_size zc p l a - control_size zc p l a ∧
    control_size zc p l a + treatment_size zc p l a
        = total_sample_size zc p l a ∧
    expected_control_conversions zc p l a
        = ⌊(control_size zc p l a : ℚ) * p⌋ ∧
    expected_treatment_conversions zc p l a
        = ⌊(treatment_size zc p l a : ℚ) * treatment_rate p l⌋ := by
  have htot0 : 0 ≤ total_sample_size zc p l a :=
    total_sample_size_nonneg zc hp hl ht ha0
  have htotq : (0 : ℚ) ≤ ((total_sample_size zc p l a : ℤ) : ℚ) := by
    exact_mod_cast htot0
  have hprod : 0 ≤ ((total_sample_size zc p l a : ℤ) : ℚ) * (1 - a) :=
    mul_nonneg htotq (by linarith)
  have hc1 : control_size zc p l a
      = ⌊((total_sample_size zc p l a : ℤ) : ℚ) * (1 - a)⌋ := by
    unfold control_size
    exact pyInt_eq_floor hprod
  have hcs0 : 0 ≤ control_size zc p l a := by
    rw [hc1]
    exact Int.floor_nonneg.mpr hprod
  have hcsq : (0 : ℚ) ≤ ((control_size zc p l a : ℤ) : ℚ) := by exact_mod_cast hcs0
  have hcs_le : control_size zc p l a ≤ total_sample_size zc p l a := by
    rw [hc1]
    have hx : ((total_sample_size zc p l a : ℤ) : ℚ) * (1 - a)
        ≤ ((total_sample_size zc p l a : ℤ) : ℚ) :=
      mul_le_of_le_one_right htotq (by linarith)
    have hfl := Int.floor_le_floor hx
    rwa [Int.floor_intCast] at hfl
  have htr0 : 0 ≤ treatment_size zc p l a := by
    unfold treatment_size
    omega
  have htrq : (0 : ℚ) ≤ ((treatment_size zc p l a : ℤ) : ℚ) := by exact_mod_cast htr0
  have hrate0 : 0 ≤ treatment_rate p l := by
    unfold treatment_rate
    nlinarith
  refine ⟨hc1, rfl, by unfold treatment_size; omega, ?_, ?_⟩
  · unfold expected_control_conversions
    exact pyInt_eq_floor (mul_nonneg hcsq hp.le)
  · unfold expected_treatment_conversions
    exact pyInt_eq_floor (mul_nonneg htrq hrate0)

lemma fiftieth_pos_q : (0 : ℚ) < 1/50 := by norm_num

lemma fifth_pos_q : (0 : ℚ) < 1/5 := by norm_num

lemma treat_lt_one_q : treatment_rate (1/50) (1/5) < 1 := by
  norm_num [treatment_rate]

/-- Witness for C8 at control_rate = 0.02, lift = 0.2, allocation = 0.5,
    z_alpha_plus_beta = 2.8. -/
theorem sample_split_c8_witness :
    control_size (14/5 : ℝ) (1/50) (1/5) (1/2)
        = ⌊(total_sample_size (14/5 : ℝ) (1/50) (1/5) (1/2) : ℚ) * (1 - 1/2)⌋ ∧
    treatment_size (14/5 : ℝ) (1/50) (1/5) (1/2)
        = total_sample_size (14/5 : ℝ) (1/50) (1/5) (1/2) -
            control_size (14/5 : ℝ) (1/50) (1/5) (1/2) ∧
    control_size (14/5 : ℝ) (1/50) (1/5) (1/2) +
          treatment_size (14/5 : ℝ) (1/50) (1/5) (1/2)
        = total_sample_size (14/5 : ℝ) (1/50) (1/5) (1/2) ∧
    expected_control_conversions (14/5 : ℝ) (1/50) (1/5) (1/2)
        = ⌊(control_size (14/5 : ℝ) (1/50) (1/5) (1/2) : ℚ) * (1/50)⌋ ∧
    expected_treatment_conversions (14/5 : ℝ) (1/50) (1/5) (1/2)
        = ⌊(treatment_size (14/5 : ℝ) (1/50) (1/5) (1/2) : ℚ) *
            treatment_rate (1/50) (1/5)⌋ :=
  sample_split_c8 (14/5 : ℝ) (1/50) (1/5) (1/2) fiftieth_pos_q fifth_pos_q
    treat_lt_one_q half_pos_q half_lt_one_q

end ABTest

namespace ABTest

lemma ratio_key {p l1 l2 : ℚ} (hp : 0 < p) (hl1 : 0 < l1) (h12 : l1 ≤ l2)
    (ht : treatment_rate p l2 ≤ 1) :
    pooled_variance p l2 * (p * l1) ^ 2 ≤ pooled_variance p l1 * (p * l2) ^ 2 := by
  have hl2 : 0 < l2 := lt_of_lt_of_le hl1 h12
  have hple : p * (1 + l2) ≤ 1 := by
    unfold treatment_rate at ht
    exact ht
  have hB : 0 ≤ (2*l1 + 2*l2 + l1*l2) - p*(2*l1 + 2*l2 + 2*l1*l2) := by
    have h1 : p * (1 + l2) * (2*l1 + 2*l2 + 2*l1*l2) ≤ 1 * (2*l1 + 2*l2 + 2*l1*l2) := by
      apply mul_le_mul_of_nonneg_right hple
      positivity
    have h5 : (0 : ℚ) ≤ l1*l2 + 2*l2^2 + l1*l2^2 := by positivity
    by_contra hneg
    push_neg at hneg
    have h2 : (1 + l2) * ((2*l1 + 2*l2 + l1*l2) - p*(2*l1 + 2*l2 + 2*l1*l2)) < 0 :=
      mul_neg_of_pos_of_neg (by linarith) hneg
    nlinarith [h1, h5]
  have hprod : 0 ≤ (l2 - l1) * ((2*l1 + 2*l2 + l1*l2) - p*(2*l1 + 2*l2 + 2*l1*l2)) * p^3 :=
    mul_nonneg (mul_nonneg (by linarith) hB) (by positivity)
  unfold pooled_variance pooled_rate treatment_rate
  nlinarith [hprod]

lemma ratio_mono {p l1 l2 a : ℚ} (hp : 0 < p) (hl1 : 0 < l1) (h12 : l1 ≤ l2)
    (ht : treatment_rate p l2 ≤ 1) (ha0 : 0 < a) :
    pooled_variance p l2 * (1 + 1/a) / ss_denominator p l2
      ≤ pooled_variance p l1 * (1 + 1/a) / ss_denominator p l1 := by
  have hl2 : 0 < l2 := lt_of_lt_of_le hl1 h12
  have hd1eq : ss_denominator p l1 = (p * l1) ^ 2 := by
    unfold ss_denominator treatment_rate
    ring
  have hd2eq : ss_denominator p l2 = (p * l2) ^ 2 := by
    unfold ss_denominator treatment_rate
    ring
  have hd1 : 0 < ss_denominator p l1 := by
    rw [hd1eq]
    positivity
  have hd2 : 0 < ss_denominator p l2 := by
    rw [hd2eq]
    positivity
  have hkey := ratio_key hp hl1 h12 ht
  have hfac : (0 : ℚ) ≤ 1 + 1/a := by positivity
  rw [div_le_div_iff hd2 hd1, hd1eq, hd2eq]
  nlinarith [mul_le_mul_of_nonneg_right hkey hfac]

/-- C7: holding the control rate and the allocation fixed, with all
    preconditions satisfied and the larger-lift treatment rate still below 1,
    the returned total sample size is monotonically non-increasing in the
    lift: for lifts l1 <= l2 the total at l2 is at most the total at l1.
    The statement holds for every value of the cached critical constant
    z_alpha_plus_beta, hence for the configured confidence and power. -/
theorem sample_size_monotone_c7 (zc : ℝ) (p a l1 l2 : ℚ)
    (hp : 0 < p) (hl1 : 0 < l1) (h12 : l1 ≤ l2)
    (ht : treatment_rate p l2 < 1) (ha0 : 0 < a) (ha1 : a < 1) :
    total_sample_size zc p l2 a ≤ total_sample_size zc p l1 a := by
  unfold total_sample_size
  have hcast : ∀ l : ℚ, ss_numerator zc p l a / ((ss_denominator p l : ℚ) : ℝ)
      = zc ^ 2 * (((pooled_variance p l * (1 + 1/a) / ss_denominator p l) : ℚ) : ℝ) := by
    intro l
    unfold ss_numerator
    push_cast
    ring
  have hq := ratio_mono hp hl1 h12 ht.le ha0
  have hreal : ss_numerator zc p l2 a / ((ss_denominator p l2 : ℚ) : ℝ)
      ≤ ss_numerator zc p l1 a / ((ss_denominator p l1 : ℚ) : ℝ) := by
    rw [hcast l2, hcast l1]
    apply mul_le_mul_of_nonneg_left _ (sq_nonneg zc)
    exact_mod_cast hq
  exact Int.ceil_mono hreal

lemma tenth_le_fifth_q : (1 : ℚ)/10 ≤ 1/5 := by norm_num

/-- Witness for C7 at control_rate = 0.02, lifts 0.1 <= 0.2,
    allocation = 0.5, z_alpha_plus_beta = 2.8. -/
theorem sample_size_monotone_c7_witness :
    total_sample_size (14/5 : ℝ) (1/50) (1/5) (1/2)
      ≤ total_sample_size (14/5 : ℝ) (1/50) (1/10) (1/2) :=
  sample_size_monotone_c7 (14/5 : ℝ) (1/50) (1/2) (1/10) (1/5) fiftieth_pos_q
    tenth_pos_q tenth_le_fifth_q treat_lt_one_q half_pos_q half_lt_one_q

end ABTest

namespace ABTest

lemma rateStatsCore_se_eq (zc : ℝ) (users : ℕ) (conversions : ℤ) :
    (rateStatsCore zc users conversions).se
      = if 0 < users ∧ 0 < (rateStatsCore zc users conversions).conversion_rate
            ∧ (rateStatsCore zc users conversions).conversion_rate < 1 then
          Real.sqrt (((rateStatsCore zc users conversions).conversion_rate : ℝ)
            * (1 - ((rateStatsCore zc users conversions).conversion_rate : ℝ))
            / (users : ℝ))
        else 0 := rfl

lemma rateStatsCore_se_sq (zc : ℝ) (users : ℕ) (conversions : ℤ)
    (hu : 0 < users) (h0 : 0 < (rateStatsCore zc users conversions).conversion_rate)
    (h1 : (rateStatsCore zc users conversions).conversion_rate < 1) :
    (rateStatsCore zc users conversions).se ^ 2
      = ((rateStatsCore zc users conversions).conversion_rate : ℝ)
        * (1 - ((rateStatsCore zc users conversions).conversion_rate : ℝ))
        / (users : ℝ) := by
  rw [rateStatsCore_se_eq, if_pos ⟨hu, h0, h1⟩]
  apply Real.sq_sqrt
  have ha : (0 : ℝ) ≤ ((rateStatsCore zc users conversions).conversion_rate : ℝ) := by
    exact_mod_cast h0.le
  have hb : ((rateStatsCore zc users conversions).conversion_rate : ℝ) ≤ 1 := by
    exact_mod_cast h1.le
  have hc : (0 : ℝ) ≤ (users : ℝ) := by positivity
  have hd : (0 : ℝ) ≤ 1 - ((rateStatsCore zc users conversions).conversion_rate : ℝ) := by
    linarith
  positivity

/-- C5: in every produced pairwise comparison the difference confidence
    interval is diff plus or minus z_critical times se_diff, where z_critical
    is the critical value of the uncorrected alpha (the Bonferroni-corrected
    threshold enters only the significance flag); and at four concrete
    groups the head comparison of the table has a CI that excludes 0 while
    its significance flag is False, so the two indicators disagree.  The
    hypotheses on zc and phi hold for the true normal pair at alpha = 0.05:
    zc is about 1.96 so zc^2 <= 4.5, and the normal cdf at any x <= 2.2 is
    at most 0.9861 <= 1 - 0.05/12. -/
theorem uncorrected_ci_c5 (phi : ℝ → ℝ) (zc alpha : ℝ)
    (hz0 : 0 ≤ zc) (hz2 : zc ^ 2 ≤ 9/2)
    (hphi : ∀ x : ℝ, x ≤ 22/10 → phi x ≤ 1 - alpha/12) :
    (∀ (stats : List RateStats), ∀ c ∈ comparisonsOf phi zc alpha stats,
        c.diff_ci_lower = (c.rate_diff : ℝ) - zc * c.se_diff ∧
        c.diff_ci_upper = (c.rate_diff : ℝ) + zc * c.se_diff) ∧
    (mkComparison phi zc (bonferroni_alpha 4 alpha) (rateStatsCore zc 1000 100)
        (rateStatsCore zc 1000 73)
      ∈ comparisonsOf phi zc alpha
          [rateStatsCore zc 1000 100, rateStatsCore zc 1000 73,
           rateStatsCore zc 1000 100, rateStatsCore zc 1000 100]) ∧
    0 < (mkComparison phi zc (bonferroni_alpha 4 alpha) (rateStatsCore zc 1000 100)
          (rateStatsCore zc 1000 73)).diff_ci_lower ∧
    ¬ (mkComparison phi zc (bonferroni_alpha 4 alpha) (rateStatsCore zc 1000 100)
          (rateStatsCore zc 1000 73)).significant := by
  have hr0 : (rateStatsCore zc 1000 100).conversion_rate = 1/10 := by
    show (if 0 < (1000 : ℕ) then ((100 : ℤ) : ℚ) / ((1000 : ℕ) : ℚ) else 0) = 1/10
    norm_num
  have hr1 : (rateStatsCore zc 1000 73).conversion_rate = 73/1000 := by
    show (if 0 < (1000 : ℕ) then ((73 : ℤ) : ℚ) / ((1000 : ℕ) : ℚ) else 0) = 73/1000
    norm_num
  have hsq0 : (rateStatsCore zc 1000 100).se ^ 2 = 9/100000 := by
    rw [rateStatsCore_se_sq zc 1000 100 (by norm_num)
      (by rw [hr0]; norm_num) (by rw [hr0]; norm_num), hr0]
    push_cast
    norm_num
  have hsq1 : (rateStatsCore zc 1000 73).se ^ 2 = 67671/1000000000 := by
    rw [rateStatsCore_se_sq zc 1000 73 (by norm_num)
      (by rw [hr1]; norm_num) (by rw [hr1]; norm_num), hr1]
    push_cast
    norm_num
  have hS : (rateStatsCore zc 1000 100).se ^ 2 + (rateStatsCore zc 1000 73).se ^ 2
      = 157671/1000000000 := by
    rw [hsq0, hsq1]
    norm_num
  have hS0 : (0 : ℝ)
      ≤ (rateStatsCore zc 1000 100).se ^ 2 + (rateStatsCore zc 1000 73).se ^ 2 := by
    rw [hS]
    norm_num
  have hD0 : 0 < Real.sqrt
      ((rateStatsCore zc 1000 100).se ^ 2 + (rateStatsCore zc 1000 73).se ^ 2) := by
    apply Real.sqrt_pos.mpr
    rw [hS]
    norm_num
  have hDsq : (Real.sqrt
      ((rateStatsCore zc 1000 100).se ^ 2 + (rateStatsCore zc 1000 73).se ^ 2)) ^ 2
      = 157671/1000000000 := by
    rw [Real.sq_sqrt hS0, hS]
  have hdiffq : (rateStatsCore zc 1000 100).conversion_rate
      - (rateStatsCore zc 1000 73).conversion_rate = 27/1000 := by
    rw [hr0, hr1]
    norm_num
  have hdiffr : (((rateStatsCore zc 1000 100).conversion_rate
      - (rateStatsCore zc 1000 73).conversion_rate : ℚ) : ℝ) = 27/1000 := by
    rw [hdiffq]
    push_cast
    norm_num
  refine ⟨?_, ?_, ?_, ?_⟩
  · intro stats c hc
    unfold comparisonsOf at hc
    obtain ⟨g, hg, rfl⟩ := List.mem_map.mp hc
    exact ⟨rfl, rfl⟩
  · simp [comparisonsOf, pairs]
  · have hlow : (mkComparison phi zc (bonferroni_alpha 4 alpha)
        (rateStatsCore zc 1000 100) (rateStatsCore zc 1000 73)).diff_ci_lower
        = (((rateStatsCore zc 1000 100).conversion_rate
            - (rateStatsCore zc 1000 73).conversion_rate : ℚ) : ℝ)
          - zc * Real.sqrt
              ((rateStatsCore zc 1000 100).se ^ 2 + (rateStatsCore zc 1000 73).se ^ 2) :=
      rfl
    rw [hlow, hdiffr]
    have h1 : (zc * Real.sqrt
        ((rateStatsCore zc 1000 100).se ^ 2 + (rateStatsCore zc 1000 73).se ^ 2)) ^ 2
        ≤ (9/2 : ℝ) * (157671/1000000000) := by
      rw [mul_pow, hDsq]
      apply mul_le_mul_of_nonneg_right hz2
      norm_num
    have h2 : (zc * Real.sqrt
        ((rateStatsCore zc 1000 100).se ^ 2 + (rateStatsCore zc 1000 73).se ^ 2)) ^ 2
        < (27/1000 : ℝ) ^ 2 := by
      apply lt_of_le_of_lt h1
      norm_num
    have h3 : zc * Real.sqrt
        ((rateStatsCore zc 1000 100).se ^ 2 + (rateStatsCore zc 1000 73).se ^ 2)
        < 27/1000 :=
      lt_of_pow_lt_pow_left 2 (by norm_num) h2
    linarith
  · show ¬ ((mkComparison phi zc (bonferroni_alpha 4 alpha)
        (rateStatsCore zc 1000 100) (rateStatsCore zc 1000 73)).p_value
          < bonferroni_alpha 4 alpha)
    have hb4 : bonferroni_alpha 4 alpha = alpha / 6 := by
      unfold bonferroni_alpha
      rw [if_pos (by norm_num [n_comparisons] : 0 < n_comparisons 4)]
      norm_num [n_comparisons]
    have hz_eq : (mkComparison phi zc (bonferroni_alpha 4 alpha)
        (rateStatsCore zc 1000 100) (rateStatsCore zc 1000 73)).z_score
        = (((rateStatsCore zc 1000 100).conversion_rate
            - (rateStatsCore zc 1000 73).conversion_rate : ℚ) : ℝ)
          / Real.sqrt
              ((rateStatsCore zc 1000 100).se ^ 2 + (rateStatsCore zc 1000 73).se ^ 2) := by
      show (if 0 < Real.sqrt
            ((rateStatsCore zc 1000 100).se ^ 2 + (rateStatsCore zc 1000 73).se ^ 2)
          then (((rateStatsCore zc 1000 100).conversion_rate
              - (rateStatsCore zc 1000 73).conversion_rate : ℚ) : ℝ)
            / Real.sqrt
                ((rateStatsCore zc 1000 100).se ^ 2 + (rateStatsCore zc 1000 73).se ^ 2)
          else 0) = _
      rw [if_pos hD0]
    have hz_nonneg : 0 ≤ (mkComparison phi zc (bonferroni_alpha 4 alpha)
        (rateStatsCore zc 1000 100) (rateStatsCore zc 1000 73)).z_score := by
      rw [hz_eq, hdiffr]
      positivity
    have hz_le : (mkComparison phi zc (bonferroni_alpha 4 alpha)
        (rateStatsCore zc 1000 100) (rateStatsCore zc 1000 73)).z_score ≤ 22/10 := by
      rw [hz_eq, hdiffr]
      apply le_of_pow_le_pow_left (by norm_num : (2 : ℕ) ≠ 0) (by norm_num : (0:ℝ) ≤ 22/10)
      rw [div_pow, hDsq]
      norm_num
    have hp_eq : (mkComparison phi zc (bonferroni_alpha 4 alpha)
        (rateStatsCore zc 1000 100) (rateStatsCore zc 1000 73)).p_value
        = 2 * (1 - phi |(mkComparison phi zc (bonferroni_alpha 4 alpha)
            (rateStatsCore zc 1000 100) (rateStatsCore zc 1000 73)).z_score|) := rfl
    have habs : |(mkComparison phi zc (bonferroni_alpha 4 alpha)
        (rateStatsCore zc 1000 100) (rateStatsCore zc 1000 73)).z_score|
        = (mkComparison phi zc (bonferroni_alpha 4 alpha)
            (rateStatsCore zc 1000 100) (rateStatsCore zc 1000 73)).z_score :=
      abs_of_nonneg hz_nonneg
    rw [hz_eq] at hz_le
    rw [hp_eq, habs, hz_eq, hb4]
    intro hcontra
    have hbound := hphi _ hz_le
    linarith
  
end ABTest

namespace ABTest

lemma two_sq_le_nine_halves : (2 : ℝ) ^ 2 ≤ 9/2 := by norm_num

lemma phi_zero_bound : ∀ x : ℝ, x ≤ 22/10 → (fun _ : ℝ => (0 : ℝ)) x ≤ 1 - (0 : ℝ)/12 := by
  intro x hx
  norm_num

/-- Witness for C5 with the constant-zero cdf, zc = 2 and alpha = 0. -/
theorem uncorrected_ci_c5_witness :
    (mkComparison (fun _ : ℝ => (0 : ℝ)) 2 (bonferroni_alpha 4 0)
        (rateStatsCore 2 1000 100) (rateStatsCore 2 1000 73)
      ∈ comparisonsOf (fun _ : ℝ => (0 : ℝ)) 2 0
          [rateStatsCore 2 1000 100, rateStatsCore 2 1000 73,
           rateStatsCore 2 1000 100, rateStatsCore 2 1000 100]) ∧
    0 < (mkComparison (fun _ : ℝ => (0 : ℝ)) 2 (bonferroni_alpha 4 0)
          (rateStatsCore 2 1000 100) (rateStatsCore 2 1000 73)).diff_ci_lower ∧
    ¬ (mkComparison (fun _ : ℝ => (0 : ℝ)) 2 (bonferroni_alpha 4 0)
          (rateStatsCore 2 1000 100) (rateStatsCore 2 1000 73)).significant :=
  ⟨(uncorrected_ci_c5 (fun _ : ℝ => (0 : ℝ)) 2 0 zero_le_two two_sq_le_nine_halves
      phi_zero_bound).2.1,
   (uncorrected_ci_c5 (fun _ : ℝ => (0 : ℝ)) 2 0 zero_le_two two_sq_le_nine_halves
      phi_zero_bound).2.2.1,
   (uncorrected_ci_c5 (fun _ : ℝ => (0 : ℝ)) 2 0 zero_le_two two_sq_le_nine_halves
      phi_zero_bound).2.2.2⟩

end ABTest

namespace ABTest

/-- C1: the round-trip property fails on the code.  At control_rate = 0.02,
    lift = 0.2, allocation = 0.5 and the default 95 percent confidence /
    80 percent power pair, whose critical values are z_alpha = 1.96 and
    z_beta = 0.8416 to the precision scipy uses them, the sizing formula
    returns n_total = 31665, and the power analysis of that very n_total
    yields z_power strictly below z_beta.  Since the normal cdf is strictly
    increasing and the configured target power is cdf applied to z_beta,
    the achieved power cdf(z_power) is strictly below the 0.80 target (it is
    about 0.68), far outside any rounding slack of the ceil: the sizing
    formula scales the pooled variance by (1 + 1/allocation) where agreement
    with its own power analysis requires (1/allocation + 1/(1-allocation)). -/
theorem power_shortfall_c1 :
    total_sample_size ((49/25 : ℝ) + 526/625) (1/50) (1/5) (1/2) = 31665 ∧
    pa_z_power (49/25 : ℝ) (1/50) (1/5) 31665 (1/2) < 526/625 ∧
    (∀ phi : ℝ → ℝ, StrictMono phi →
      pa_power phi (49/25 : ℝ) (1/50) (1/5) 31665 (1/2) < phi (526/625)) := by
  have hpv : pooled_variance (1/50) (1/5) = 5379/250000 := by
    norm_num [pooled_variance, pooled_rate, treatment_rate]
  have hden : ss_denominator (1/50) (1/5) = 1/62500 := by
    norm_num [ss_denominator, treatment_rate]
  have heff : minimum_detectable_effect (1/50) (1/5) = 1/250 := by
    norm_num [minimum_detectable_effect, treatment_rate]
  have hzpow : pa_z_power (49/25 : ℝ) (1/50) (1/5) 31665 (1/2) < 526/625 := by
    have hn1 : pa_n1 31665 (1/2) = 15832 := by
      unfold pa_n1 pyInt
      rw [if_neg (by norm_num : ¬(((31665 : ℤ) : ℚ) * (1 - 1/2) < 0))]
      rw [Int.floor_eq_iff]
      constructor
      · push_cast
        norm_num
      · push_cast
        norm_num
    have hn2 : pa_n2 31665 (1/2) = 15833 := by
      unfold pa_n2
      rw [hn1]
      norm_num
    unfold pa_z_power pa_se
    rw [hn1, hn2, hpv, heff]
    have hS_pos : (0 : ℝ) < ((5379/250000 : ℚ) : ℝ)
        * (1 / ((15832 : ℤ) : ℝ) + 1 / ((15833 : ℤ) : ℝ)) := by
      push_cast
      positivity
    have hsqrt_pos : 0 < Real.sqrt (((5379/250000 : ℚ) : ℝ)
        * (1 / ((15832 : ℤ) : ℝ) + 1 / ((15833 : ℤ) : ℝ))) :=
      Real.sqrt_pos.mpr hS_pos
    have htarget : ((1/250 : ℚ) : ℝ) / Real.sqrt (((5379/250000 : ℚ) : ℝ)
        * (1 / ((15832 : ℤ) : ℝ) + 1 / ((15833 : ℤ) : ℝ))) < 1751/625 := by
      rw [div_lt_iff hsqrt_pos]
      apply lt_of_pow_lt_pow_left 2
        (mul_nonneg (by norm_num) (Real.sqrt_nonneg _))
      rw [mul_pow, Real.sq_sqrt hS_pos.le]
      push_cast
      norm_num
    linarith
  refine ⟨?_, hzpow, ?_⟩
  · unfold total_sample_size ss_numerator
    rw [hpv, hden, Int.ceil_eq_iff]
    constructor
    · push_cast
      norm_num
    · push_cast
      norm_num
  · intro phi hmono
    unfold pa_power
    exact hmono hzpow

/-- Witness discharging the monotone-cdf hypothesis of C1 with the identity
    function. -/
theorem power_shortfall_c1_witness :
    pa_power (fun x : ℝ => x) (49/25 : ℝ) (1/50) (1/5) 31665 (1/2)
      < (fun x : ℝ => x) (526/625) :=
  power_shortfall_c1.2.2 (fun x : ℝ => x) strictMono_id

end ABTest
